import Mathlib

/-!
Verification of the unpooling layer of the video-caffe repository.

This file embeds, as executable Lean definitions, the CPU unpooling layer
(`src/caffe/layers/unpooling_layer.cpp`: `LayerSetUp`, `Reshape`,
`Forward_cpu`, `Backward_cpu`) and the blob-count declarations of the two
cuDNN variants (`include/caffe/layers/cudnn_unpooling_layer.hpp`), and
proves or refutes the specification's claims about them.

Buffers are modelled as `List Int`: the kernels only copy and zero-fill
values (no floating-point arithmetic is performed), so integer values are a
faithful carrier.  The mask blob stores indices (the C++ code reads them
from a `Dtype` buffer and casts to `int`); it is modelled as `List Nat`.
Pointer bumping (`ptr += blob->offset(0, 1)`) is modelled by explicit
offsets threaded through a fold, preserving the exact loop/brace structure
of the source: in `Forward_cpu` the offsets advance once per channel
iteration, while in `Backward_cpu` the advancing statements sit inside the
batch loop but after the channel loop closes.
-/

namespace Caffe

/-- The numeric element type of blobs.  The kernels only move values, so
`Int` is a faithful stand-in for the C++ `Dtype`. -/
abbrev Dtype := Int

/-- The `UnpoolingParameter` protobuf message as seen through its generated
accessors: for each field the layer code reads a presence bit `has_x` and a
value `x` (a `uint32`, modelled as `Nat`).  Quantifying over all
combinations of presence bits and values covers every possible parameter
object. -/
structure UnpoolingParameter where
  has_kernel_size : Bool
  kernel_size : Nat
  has_kernel_h : Bool
  kernel_h : Nat
  has_kernel_w : Bool
  kernel_w : Nat
  has_pad : Bool
  pad : Nat
  has_pad_h : Bool
  pad_h : Nat
  has_pad_w : Bool
  pad_w : Nat
  has_stride : Bool
  stride : Nat
  has_stride_h : Bool
  stride_h : Nat
  has_stride_w : Bool
  stride_w : Nat
deriving DecidableEq

/-- The member fields `kernel_h_`, ..., `stride_w_` that
`UnpoolingLayer::LayerSetUp` resolves from the parameter message. -/
structure ResolvedParams where
  kernel_h_ : Nat
  kernel_w_ : Nat
  pad_h_ : Nat
  pad_w_ : Nat
  stride_h_ : Nat
  stride_w_ : Nat
deriving DecidableEq

/-- The assignment `kernel_h_ = ...` of `LayerSetUp` lines 34-39: the
scalar `kernel_size` when present, else the per-axis `kernel_h`. -/
def resolvedKernelH (p : UnpoolingParameter) : Nat :=
  if p.has_kernel_size then p.kernel_size else p.kernel_h

/-- The assignment `kernel_w_ = ...` of `LayerSetUp` lines 34-39. -/
def resolvedKernelW (p : UnpoolingParameter) : Nat :=
  if p.has_kernel_size then p.kernel_size else p.kernel_w

/-- The assignment `pad_h_ = ...` of `LayerSetUp` lines 43-48: the scalar
`pad` when `pad_h` is absent, else the per-axis `pad_h`. -/
def resolvedPadH (p : UnpoolingParameter) : Nat :=
  if !p.has_pad_h then p.pad else p.pad_h

/-- The assignment `pad_w_ = ...` of `LayerSetUp` lines 43-48. -/
def resolvedPadW (p : UnpoolingParameter) : Nat :=
  if !p.has_pad_h then p.pad else p.pad_w

/-- The assignment `stride_h_ = ...` of `LayerSetUp` lines 51-56: the
scalar `stride` when `stride_h` is absent, else the per-axis `stride_h`. -/
def resolvedStrideH (p : UnpoolingParameter) : Nat :=
  if !p.has_stride_h then p.stride else p.stride_h

/-- The assignment `stride_w_ = ...` of `LayerSetUp` lines 51-56. -/
def resolvedStrideW (p : UnpoolingParameter) : Nat :=
  if !p.has_stride_h then p.stride else p.stride_w

/-- The six member fields as `LayerSetUp` leaves them on success. -/
def resolvedAll (p : UnpoolingParameter) : ResolvedParams :=
  ⟨resolvedKernelH p, resolvedKernelW p, resolvedPadH p, resolvedPadW p,
    resolvedStrideH p, resolvedStrideW p⟩

/-- `UnpoolingLayer::LayerSetUp` (unpooling_layer.cpp lines 14-61).  Each
`CHECK` that fails aborts the program; this is modelled by returning
`none`.  The checks appear in exactly the source order: the two
kernel-form checks (lines 19-24), the pad-form check (lines 25-28), the
stride-form check (lines 29-32), the two `CHECK_GT(kernel, 0)` (lines
40-41), and the conditional `CHECK_LT(pad, kernel)` pair (lines 57-60);
the member assignments interleaved with them are the `resolved*`
definitions above. -/
def LayerSetUp (p : UnpoolingParameter) : Option ResolvedParams :=
  if (!p.has_kernel_size) = (!(p.has_kernel_h && p.has_kernel_w)) then none
  else if !(p.has_kernel_size || (p.has_kernel_h && p.has_kernel_w)) then none
  else if !((!p.has_pad && p.has_pad_h && p.has_pad_w)
      || (!p.has_pad_h && !p.has_pad_w)) then none
  else if !((!p.has_stride && p.has_stride_h && p.has_stride_w)
      || (!p.has_stride_h && !p.has_stride_w)) then none
  else if resolvedKernelH p = 0 then none
  else if resolvedKernelW p = 0 then none
  else if resolvedPadH p ≠ 0 ∨ resolvedPadW p ≠ 0 then
    if resolvedPadH p < resolvedKernelH p then
      if resolvedPadW p < resolvedKernelW p then some (resolvedAll p)
      else none
    else none
  else some (resolvedAll p)

/-- The shape of a 4-axis input blob: (num, channels, height, width). -/
structure BlobShape where
  num : Nat
  channels : Nat
  height : Nat
  width : Nat
deriving DecidableEq

/-- The shape the output blob is resized to by `Reshape`.  The spatial
dimensions are the `int` results of the C++ arithmetic, hence `Int`. -/
structure TopShape where
  num : Nat
  channels : Nat
  height : Int
  width : Int
deriving DecidableEq

/-- The state `Reshape` leaves behind: the cached `channels_`, `height_`,
`width_`, the computed `unpooled_height_`/`unpooled_width_`, and the shape
passed to `top[0]->Reshape`. -/
structure ReshapeResult where
  channels_ : Nat
  height_ : Nat
  width_ : Nat
  unpooled_height_ : Int
  unpooled_width_ : Int
  top_shape : TopShape
deriving DecidableEq

/-- `UnpoolingLayer::Reshape` (unpooling_layer.cpp lines 63-76): reads
channels/height/width from the input shape, computes
`unpooled = (in - 1) * stride + kernel - 2 * pad` per axis in `int`
arithmetic, and resizes the top blob to
(num, channels, unpooled_height, unpooled_width). -/
def Reshape (kernel_h_ kernel_w_ stride_h_ stride_w_ pad_h_ pad_w_ : Nat)
    (bottom : BlobShape) : ReshapeResult :=
  let channels_ := bottom.channels
  let height_ := bottom.height
  let width_ := bottom.width
  let unpooled_height_ : Int :=
    ((height_ : Int) - 1) * (stride_h_ : Int) + (kernel_h_ : Int) - 2 * (pad_h_ : Int)
  let unpooled_width_ : Int :=
    ((width_ : Int) - 1) * (stride_w_ : Int) + (kernel_w_ : Int) - 2 * (pad_w_ : Int)
  ⟨channels_, height_, width_, unpooled_height_, unpooled_width_,
    ⟨bottom.num, channels_, unpooled_height_, unpooled_width_⟩⟩

/-- `CuDNNUnpoolingLayer::ExactNumBottomBlobs` (cudnn_unpooling_layer.hpp
line 30). -/
def CuDNNUnpoolingLayer_ExactNumBottomBlobs : Nat := 1

/-- `CuDNNUnpoolingLayer::ExactNumTopBlobs` (cudnn_unpooling_layer.hpp
line 31). -/
def CuDNNUnpoolingLayer_ExactNumTopBlobs : Nat := 2

/-- `CudnnNdUnpoolingLayer::ExactNumBottomBlobs` (cudnn_unpooling_layer.hpp
line 60). -/
def CudnnNdUnpoolingLayer_ExactNumBottomBlobs : Nat := 1

/-- `CudnnNdUnpoolingLayer::ExactNumTopBlobs` (cudnn_unpooling_layer.hpp
line 61). -/
def CudnnNdUnpoolingLayer_ExactNumTopBlobs : Nat := 1

/-- `caffe_set(count, 0, buf)`: a freshly zero-filled buffer of `count`
elements. -/
def caffe_set (count : Nat) (v : Dtype) : List Dtype := List.replicate count v

/-- The running pointers of the main loops (`bottom_data`/`bottom_diff`,
`bottom_mask`, `top_data`/`top_diff`) as offsets from the start of each
buffer, together with the buffer being written. -/
structure PtrState where
  botOff : Nat
  maskOff : Nat
  topOff : Nat
  buf : List Dtype
deriving DecidableEq

/-- The two inner spatial loops of `Forward_cpu` (lines 96-102): for each
`ph < height`, `pw < width`, with `index = ph * width + pw` and
`mask_index = bottom_mask[index]`, perform
`top_data[mask_index] = bottom_data[index]`, all three buffers read/written
at their current offsets. -/
def forwardSliceLoop (bottom_data : List Dtype) (bottom_mask : List Nat)
    (botOff maskOff topOff height width : Nat) (top_data : List Dtype) : List Dtype :=
  (List.range height).foldl (fun top_data ph =>
    (List.range width).foldl (fun top_data pw =>
      let index := ph * width + pw
      let mask_index := bottom_mask.getD (maskOff + index) 0
      top_data.set (topOff + mask_index) (bottom_data.getD (botOff + index) 0))
      top_data)
    top_data

/-- `UnpoolingLayer::Forward_cpu` (lines 80-109): zero-fill the top buffer
(`caffe_set(top_count, 0, top_data)`), then loop over `n < num` and
`c < channels`; after each channel's spatial loops the three pointers
advance by one channel slice (`offset(0, 1)`), i.e. by `height * width`
for the bottom and mask buffers and by `unpooled_height * unpooled_width`
for the top buffer. -/
def Forward_cpu (num channels height width unpooled_height unpooled_width : Nat)
    (bottom_data : List Dtype) (bottom_mask : List Nat) : List Dtype :=
  ((List.range num).foldl (fun st _n =>
    (List.range channels).foldl (fun st _c =>
      (⟨st.botOff + height * width, st.maskOff + height * width,
        st.topOff + unpooled_height * unpooled_width,
        forwardSliceLoop bottom_data bottom_mask st.botOff st.maskOff st.topOff
          height width st.buf⟩ : PtrState)) st)
    ⟨0, 0, 0, caffe_set (num * channels * (unpooled_height * unpooled_width)) 0⟩).buf

/-- The two inner spatial loops of `Backward_cpu` (lines 127-133): for each
`ph < height`, `pw < width`, with `index = ph * width + pw` and
`mask_index = bottom_mask[index]`, perform
`bottom_diff[index] = top_diff[mask_index]` at the current offsets. -/
def backwardSliceLoop (top_diff : List Dtype) (bottom_mask : List Nat)
    (botOff maskOff topOff height width : Nat) (bottom_diff : List Dtype) : List Dtype :=
  (List.range height).foldl (fun bottom_diff ph =>
    (List.range width).foldl (fun bottom_diff pw =>
      let index := ph * width + pw
      let mask_index := bottom_mask.getD (maskOff + index) 0
      bottom_diff.set (botOff + index) (top_diff.getD (topOff + mask_index) 0))
      bottom_diff)
    bottom_diff

/-- `UnpoolingLayer::Backward_cpu` (lines 111-140): if `!propagate_down[0]`
return immediately, leaving the input gradient buffer untouched; otherwise
zero-fill it (`caffe_set(bottom_count, 0, bottom_diff)`) and run the main
loop.  NOTE the brace placement of the source: the closing brace on line
134 ends the channel loop *before* the pointer-advancing statements on
lines 136-138, so the three pointers advance by one channel slice once per
*batch* iteration, and the channel loop re-runs the spatial loops at
unchanged offsets. -/
def Backward_cpu (propagate_down : Bool)
    (num channels height width unpooled_height unpooled_width : Nat)
    (top_diff : List Dtype) (bottom_mask : List Nat)
    (bottom_diff : List Dtype) : List Dtype :=
  if !propagate_down then bottom_diff
  else
    let bottom_count := num * channels * (height * width)
    let init : PtrState := ⟨0, 0, 0, caffe_set bottom_count 0⟩
    let final := (List.range num).foldl (fun st _n =>
      let bd := (List.range channels).foldl (fun bd _c =>
        backwardSliceLoop top_diff bottom_mask st.botOff st.maskOff st.topOff
          height width bd) st.buf
      (⟨st.botOff + height * width, st.maskOff + height * width,
        st.topOff + unpooled_height * unpooled_width, bd⟩ : PtrState)) init
    final.buf

/-- The flat form of the forward spatial loops: the nested `(ph, pw)`
iteration writes at flat indices `index = ph * width + pw`, which visit
`0, ..., m - 1` (for `m = height * width`) in increasing order. -/
def scatterFlat (bottom_data : List Dtype) (bottom_mask : List Nat)
    (botOff maskOff topOff m : Nat) (top_data : List Dtype) : List Dtype :=
  (List.range m).foldl (fun top_data i =>
    top_data.set (topOff + bottom_mask.getD (maskOff + i) 0)
      (bottom_data.getD (botOff + i) 0)) top_data

/-- The last flat spatial position of a slice whose mask entry equals `t`:
the largest `i < m` with `mask[maskOff + i] = t`, if any.  Because the
forward loop visits flat indices in increasing order and overwrites
without accumulation, this is the position whose value survives. -/
def lastWriter (bottom_mask : List Nat) (maskOff m t : Nat) : Option Nat :=
  (List.range m).reverse.find? (fun i => bottom_mask.getD (maskOff + i) 0 == t)

/-- The forward main loop with the pointer bookkeeping resolved: slice `s`
(i.e. `s = n * channels + c`) scatters with all three offsets at slice `s`
of the respective buffers. -/
def forwardSlices (bottom_data : List Dtype) (bottom_mask : List Nat)
    (height width uh uw S : Nat) (td : List Dtype) : List Dtype :=
  (List.range S).foldl (fun buf s =>
    forwardSliceLoop bottom_data bottom_mask (s * (height * width))
      (s * (height * width)) (s * (uh * uw)) height width buf) td

/-! ### Generic helper lemmas -/

/-- Flattening the two nested spatial loops: iterating a body at
`index = ph * w + pw` over `ph < h`, `pw < w` is iterating it over the flat
indices `0, ..., h * w - 1` in increasing order. -/
theorem foldl_range_nest {α : Type} (f : α → Nat → α) (h w : Nat) (a : α) :
    (List.range h).foldl
        (fun acc ph => (List.range w).foldl (fun acc pw => f acc (ph * w + pw)) acc) a
      = (List.range (h * w)).foldl f a := by
  induction h generalizing a with
  | zero => simp
  | succ n ih =>
    rw [List.range_succ, List.foldl_append, ih, Nat.succ_mul, List.range_add,
      List.foldl_append, List.foldl_map]
    simp only [List.foldl_cons, List.foldl_nil]

theorem getD_set_self (l : List Dtype) (i : Nat) (v : Dtype) (h : i < l.length) :
    (l.set i v).getD i 0 = v := by
  simp [List.getD_eq_getElem?_getD, List.getElem?_set_self', List.getElem?_eq_getElem h]

theorem getD_set_ne (l : List Dtype) (i j : Nat) (v : Dtype) (h : i ≠ j) :
    (l.set i v).getD j 0 = l.getD j 0 := by
  simp [List.getD_eq_getElem?_getD, List.getElem?_set_ne h]

theorem getD_replicate_zero (n i : Nat) : (List.replicate n (0 : Dtype)).getD i 0 = 0 := by
  simp only [List.getD_eq_getElem?_getD, List.getElem?_replicate]
  split <;> rfl

/-! ### Claim theorems: parameter resolver -/

/-- Claim C7: setup rejects every configuration where the scalar
`kernel_size` and both per-axis kernel fields are all present, and every
configuration where neither the scalar nor both per-axis fields are
present (the first `CHECK` on lines 19-21 fails in both cases). -/
theorem layerSetUp_rejects_kernel_form (p : UnpoolingParameter)
    (h : (p.has_kernel_size = true ∧ p.has_kernel_h = true ∧ p.has_kernel_w = true) ∨
         (p.has_kernel_size = false ∧ (p.has_kernel_h && p.has_kernel_w) = false)) :
    LayerSetUp p = none := by
  rcases h with ⟨h1, h2, h3⟩ | ⟨h1, h2⟩
  · simp [LayerSetUp, h1, h2, h3]
  · simp [LayerSetUp, h1, h2]

theorem layerSetUp_rejects_kernel_form_witness :
    LayerSetUp ⟨true, 2, true, 2, true, 2, false, 0, false, 0, false, 0,
        false, 1, false, 0, false, 0⟩ = none :=
  layerSetUp_rejects_kernel_form _ (Or.inl ⟨rfl, rfl, rfl⟩)

/-- Claim C8: every configuration setup accepts resolves to strictly
positive kernel dimensions, and whenever a resolved pad dimension is
nonzero, each pad dimension is strictly below the matching kernel
dimension (lines 40-41 and 57-60); contrapositively every configuration
violating these is rejected. -/
theorem layerSetUp_kernel_pad_invariants (p : UnpoolingParameter) (r : ResolvedParams)
    (h : LayerSetUp p = some r) :
    0 < r.kernel_h_ ∧ 0 < r.kernel_w_ ∧
      ((r.pad_h_ ≠ 0 ∨ r.pad_w_ ≠ 0) → r.pad_h_ < r.kernel_h_ ∧ r.pad_w_ < r.kernel_w_) := by
  unfold LayerSetUp at h
  split_ifs at h with hc1 hc2 hc3 hc4 hk1 hk2 hpnz hp1 hp2
  · cases Option.some.inj h
    exact ⟨Nat.pos_of_ne_zero hk1, Nat.pos_of_ne_zero hk2, fun _ => ⟨hp1, hp2⟩⟩
  · cases Option.some.inj h
    exact ⟨Nat.pos_of_ne_zero hk1, Nat.pos_of_ne_zero hk2, fun hx => absurd hx hpnz⟩

theorem layerSetUp_kernel_pad_invariants_witness :
    0 < (2 : Nat) ∧ 0 < (2 : Nat) ∧
      (((1 : Nat) ≠ 0 ∨ (1 : Nat) ≠ 0) → (1 : Nat) < 2 ∧ (1 : Nat) < 2) :=
  layerSetUp_kernel_pad_invariants
    ⟨true, 2, false, 0, false, 0, false, 1, false, 0, false, 0, false, 1, false, 0, false, 0⟩
    ⟨2, 2, 1, 1, 1, 1⟩ (by decide)

/-- Claim C5 (counterexample): a configuration with `stride = 0` explicitly
present passes every `CHECK` in `LayerSetUp` — there is no stride
positivity check — and resolves to stride 0. -/
theorem layerSetUp_accepts_zero_stride :
    LayerSetUp ⟨true, 2, false, 0, false, 0, false, 0, false, 0, false, 0,
        true, 0, false, 0, false, 0⟩ = some ⟨2, 2, 0, 0, 0, 0⟩ ∧
      ¬ 0 < (⟨2, 2, 0, 0, 0, 0⟩ : ResolvedParams).stride_h_ := ⟨rfl, by decide⟩

/-- Claim C5 (amended): setup never validates the stride values; the
resolved strides are copied verbatim from the configuration — per-axis
when `stride_h` is present, otherwise the scalar — so acceptance places no
positivity constraint on them. -/
theorem layerSetUp_stride_copied (p : UnpoolingParameter) (r : ResolvedParams)
    (h : LayerSetUp p = some r) :
    r.stride_h_ = (if !p.has_stride_h then p.stride else p.stride_h) ∧
    r.stride_w_ = (if !p.has_stride_h then p.stride else p.stride_w) := by
  unfold LayerSetUp at h
  split_ifs at h with hc1 hc2 hc3 hc4 hk1 hk2 hpnz hp1 hp2
  · cases Option.some.inj h
    exact ⟨rfl, rfl⟩
  · cases Option.some.inj h
    exact ⟨rfl, rfl⟩

theorem layerSetUp_stride_copied_witness : (5 : Nat) = 5 ∧ (7 : Nat) = 7 :=
  layerSetUp_stride_copied
    ⟨true, 2, false, 0, false, 0, false, 0, false, 0, false, 0,
      false, 1, true, 5, true, 7⟩
    ⟨2, 2, 0, 0, 5, 7⟩ (by decide)

/-- Claim C10: a configuration carrying the scalar `kernel_size` together
with exactly one of `kernel_h`/`kernel_w` passes the kernel-form checks
(lines 19-24), and the scalar determines both resolved kernel dimensions
(lines 34-35) — the lone per-axis field is never read. -/
theorem layerSetUp_scalar_with_lone_axis (p : UnpoolingParameter)
    (hks : p.has_kernel_size = true)
    (hone : p.has_kernel_h ≠ p.has_kernel_w)
    (hk : p.kernel_size ≠ 0)
    (hpadform : ((!p.has_pad && p.has_pad_h && p.has_pad_w)
        || (!p.has_pad_h && !p.has_pad_w)) = true)
    (hstrideform : ((!p.has_stride && p.has_stride_h && p.has_stride_w)
        || (!p.has_stride_h && !p.has_stride_w)) = true)
    (hpadk : resolvedPadH p ≠ 0 ∨ resolvedPadW p ≠ 0 →
      resolvedPadH p < p.kernel_size ∧ resolvedPadW p < p.kernel_size) :
    LayerSetUp p = some (resolvedAll p) ∧
      (resolvedAll p).kernel_h_ = p.kernel_size ∧
      (resolvedAll p).kernel_w_ = p.kernel_size := by
  have hhw : (p.has_kernel_h && p.has_kernel_w) = false := by
    cases hh : p.has_kernel_h <;> cases hw : p.has_kernel_w <;> simp_all
  have hkh : resolvedKernelH p = p.kernel_size := by simp [resolvedKernelH, hks]
  have hkw : resolvedKernelW p = p.kernel_size := by simp [resolvedKernelW, hks]
  refine ⟨?_, hkh, hkw⟩
  unfold LayerSetUp
  simp only [hks, hhw, hpadform, hstrideform, hkh, hkw, hk]
  simp only [Bool.not_true, Bool.not_false, Bool.true_or, Bool.false_eq_true,
    if_false, if_true]
  split_ifs with hnz h1 h2
  · rfl
  · exact absurd (hpadk hnz).2 h2
  · exact absurd (hpadk hnz).1 h1
  · rfl

theorem layerSetUp_scalar_with_lone_axis_witness :
    LayerSetUp ⟨true, 3, true, 7, false, 0, false, 0, false, 0, false, 0,
        false, 1, false, 0, false, 0⟩ =
      some (resolvedAll ⟨true, 3, true, 7, false, 0, false, 0, false, 0, false, 0,
        false, 1, false, 0, false, 0⟩) ∧
      (resolvedAll ⟨true, 3, true, 7, false, 0, false, 0, false, 0, false, 0,
        false, 1, false, 0, false, 0⟩).kernel_h_ = 3 ∧
      (resolvedAll ⟨true, 3, true, 7, false, 0, false, 0, false, 0, false, 0,
        false, 1, false, 0, false, 0⟩).kernel_w_ = 3 :=
  layerSetUp_scalar_with_lone_axis _ rfl (by decide) (by decide) (by decide)
    (by decide) (by decide)

/-! ### Claim theorems: reshape and blob counts -/

/-- Claim C4: `Reshape` sets the output spatial dimensions to exactly
`(input_dim - 1) * stride + kernel - 2 * pad` per axis and resizes the top
blob to (num, channels, unpooled_height, unpooled_width). -/
theorem reshape_output_shape
    (kernel_h_ kernel_w_ stride_h_ stride_w_ pad_h_ pad_w_ : Nat) (bottom : BlobShape) :
    (Reshape kernel_h_ kernel_w_ stride_h_ stride_w_ pad_h_ pad_w_ bottom).unpooled_height_
        = ((bottom.height : Int) - 1) * (stride_h_ : Int) + (kernel_h_ : Int)
            - 2 * (pad_h_ : Int) ∧
    (Reshape kernel_h_ kernel_w_ stride_h_ stride_w_ pad_h_ pad_w_ bottom).unpooled_width_
        = ((bottom.width : Int) - 1) * (stride_w_ : Int) + (kernel_w_ : Int)
            - 2 * (pad_w_ : Int) ∧
    (Reshape kernel_h_ kernel_w_ stride_h_ stride_w_ pad_h_ pad_w_ bottom).top_shape
        = ⟨bottom.num, bottom.channels,
            ((bottom.height : Int) - 1) * (stride_h_ : Int) + (kernel_h_ : Int)
              - 2 * (pad_h_ : Int),
            ((bottom.width : Int) - 1) * (stride_w_ : Int) + (kernel_w_ : Int)
              - 2 * (pad_w_ : Int)⟩ :=
  ⟨rfl, rfl, rfl⟩

/-- Claim C6 (counterexample): the cuDNN 2-D variant declares exactly 1
input blob, not 2 (cudnn_unpooling_layer.hpp line 30). -/
theorem cudnn_declares_one_bottom_blob : CuDNNUnpoolingLayer_ExactNumBottomBlobs ≠ 2 := by
  decide

/-- Claim C6 (amended): the cuDNN 2-D variant declares exactly 1 input and
2 output blobs; the N-dimensional variant declares exactly 1 input and 1
output blob. -/
theorem cudnn_blob_counts :
    CuDNNUnpoolingLayer_ExactNumBottomBlobs = 1 ∧
    CuDNNUnpoolingLayer_ExactNumTopBlobs = 2 ∧
    CudnnNdUnpoolingLayer_ExactNumBottomBlobs = 1 ∧
    CudnnNdUnpoolingLayer_ExactNumTopBlobs = 1 := ⟨rfl, rfl, rfl, rfl⟩

/-! ### Claim theorems: backward kernel -/

/-- Claim C9: running the backward pass with gradient propagation to the
input disabled returns the input gradient buffer bit-for-bit unchanged —
the early return on lines 114-116 precedes both the zero-fill and the main
loop. -/
theorem backward_no_propagate_is_noop
    (num channels height width unpooled_height unpooled_width : Nat)
    (top_diff : List Dtype) (bottom_mask : List Nat) (bottom_diff : List Dtype) :
    Backward_cpu false num channels height width unpooled_height unpooled_width
      top_diff bottom_mask bottom_diff = bottom_diff := rfl

/-- Claim C1 (code bug): with num = 1, channels = 2, a 1×1 input grid and a
1×1 unpooled grid, in-range mask `[0, 0]` and upstream gradient `[3, 4]`,
the backward pass yields `[3, 0]` instead of the per-slice gather `[3, 4]`
claimed by the spec: the pointer-advancing statements sit inside the batch
loop but after the channel loop (brace on line 134), so the second channel
slice is re-read from the first slice's offsets and never written. -/
theorem backward_cpu_misroutes_second_channel :
    Backward_cpu true 1 2 1 1 1 1 [3, 4] [0, 0] [9, 9] = [3, 0] ∧
      ([3, 0] : List Dtype) ≠ [3, 4] := ⟨rfl, by decide⟩

/-- Claim C2 (code bug): round-trip failure at a well-formed mask.  With
bottom `[5, 7]`, num = 1, channels = 2, 1×1 grids and per-slice bijective
mask `[0, 0]`, the forward pass yields `[5, 7]`, but feeding that back as
the upstream gradient, the backward pass returns `[5, 0]`, not the
original input `[5, 7]`: the misplaced pointer advance leaves the second
channel slice zero. -/
theorem roundtrip_fails_on_second_channel :
    Backward_cpu true 1 2 1 1 1 1 (Forward_cpu 1 2 1 1 1 1 [5, 7] [0, 0])
        [0, 0] [0, 0] = [5, 0] ∧
      ([5, 0] : List Dtype) ≠ [5, 7] := ⟨rfl, by decide⟩

/-! ### Forward kernel: loop-flattening lemmas -/

theorem forwardSliceLoop_eq_scatterFlat (bottom_data : List Dtype)
    (bottom_mask : List Nat) (botOff maskOff topOff height width : Nat)
    (top_data : List Dtype) :
    forwardSliceLoop bottom_data bottom_mask botOff maskOff topOff height width top_data
      = scatterFlat bottom_data bottom_mask botOff maskOff topOff (height * width)
          top_data := by
  unfold forwardSliceLoop scatterFlat
  exact foldl_range_nest
    (fun td i => td.set (topOff + bottom_mask.getD (maskOff + i) 0)
      (bottom_data.getD (botOff + i) 0)) height width top_data

theorem scatterFlat_succ (b : List Dtype) (mk : List Nat) (bo mo toff m : Nat)
    (td : List Dtype) :
    scatterFlat b mk bo mo toff (m + 1) td
      = (scatterFlat b mk bo mo toff m td).set (toff + mk.getD (mo + m) 0)
          (b.getD (bo + m) 0) := by
  unfold scatterFlat
  rw [List.range_succ, List.foldl_append]
  simp only [List.foldl_cons, List.foldl_nil]

theorem scatterFlat_length (b : List Dtype) (mk : List Nat) (bo mo toff m : Nat)
    (td : List Dtype) :
    (scatterFlat b mk bo mo toff m td).length = td.length := by
  induction m with
  | zero => rfl
  | succ n ih => rw [scatterFlat_succ, List.length_set, ih]

/-- A slice whose mask entries all lie below `C` writes only inside its own
output region `[toff, toff + C)`. -/
theorem scatterFlat_frame (b : List Dtype) (mk : List Nat) (bo mo toff m C : Nat)
    (td : List Dtype) (hmask : ∀ i, i < m → mk.getD (mo + i) 0 < C)
    (p : Nat) (hp : p < toff ∨ toff + C ≤ p) :
    (scatterFlat b mk bo mo toff m td).getD p 0 = td.getD p 0 := by
  induction m with
  | zero => rfl
  | succ n ih =>
    have hlt := hmask n (Nat.lt_succ_self n)
    have hne : toff + mk.getD (mo + n) 0 ≠ p := by omega
    rw [scatterFlat_succ, getD_set_ne _ _ _ _ hne,
      ih (fun i hi => hmask i (Nat.lt_succ_of_lt hi))]

theorem lastWriter_succ (mk : List Nat) (mo m t : Nat) :
    lastWriter mk mo (m + 1) t
      = if mk.getD (mo + m) 0 = t then some m else lastWriter mk mo m t := by
  unfold lastWriter
  rw [List.range_succ, List.reverse_append]
  simp only [List.reverse_cons, List.reverse_nil, List.nil_append,
    List.singleton_append]
  by_cases h : mk.getD (mo + m) 0 = t
  · rw [if_pos h]
    exact List.find?_cons_of_pos _ (by simp only [beq_iff_eq]; exact h)
  · rw [if_neg h]
    exact List.find?_cons_of_neg _ (by simp only [beq_iff_eq]; exact h)

/-- Within the slice's own region, the surviving value at `toff + t` is
the input at the last flat position whose mask entry is `t`, or the
pre-existing value when no mask entry of the slice references `t`. -/
theorem scatterFlat_getD_last (b : List Dtype) (mk : List Nat) (bo mo toff m t : Nat)
    (td : List Dtype) (hlen : toff + t < td.length) :
    (scatterFlat b mk bo mo toff m td).getD (toff + t) 0 =
      match lastWriter mk mo m t with
      | some i => b.getD (bo + i) 0
      | none => td.getD (toff + t) 0 := by
  induction m with
  | zero => rfl
  | succ n ih =>
    rw [scatterFlat_succ, lastWriter_succ]
    by_cases h : mk.getD (mo + n) 0 = t
    · rw [if_pos h, h, getD_set_self _ _ _ (by rw [scatterFlat_length]; exact hlen)]
    · have hne : toff + mk.getD (mo + n) 0 ≠ toff + t := by omega
      rw [if_neg h, getD_set_ne _ _ _ _ hne, ih]

/-! ### Forward kernel: pointer bookkeeping -/

/-- The offsets of the forward main loop advance affinely: starting at
slice `a`, after `k` channel iterations the offsets sit at slice `a + k`
and the buffer has been scattered into by slices `a, ..., a + k - 1`. -/
theorem forward_state_fold (b : List Dtype) (mk : List Nat)
    (height width uh uw : Nat) :
    ∀ (k a : Nat) (td : List Dtype),
      (List.range k).foldl (fun st _ =>
          (⟨st.botOff + height * width, st.maskOff + height * width,
            st.topOff + uh * uw,
            forwardSliceLoop b mk st.botOff st.maskOff st.topOff height width
              st.buf⟩ : PtrState))
        ⟨a * (height * width), a * (height * width), a * (uh * uw), td⟩
      = ⟨(a + k) * (height * width), (a + k) * (height * width),
          (a + k) * (uh * uw),
          (List.range k).foldl (fun buf j =>
            forwardSliceLoop b mk ((a + j) * (height * width))
              ((a + j) * (height * width)) ((a + j) * (uh * uw)) height width buf)
            td⟩ := by
  intro k
  induction k with
  | zero => intro a td; rfl
  | succ n ih =>
    intro a td
    rw [List.range_succ, List.foldl_append, List.foldl_append, ih a td]
    simp only [List.foldl_cons, List.foldl_nil]
    congr 1 <;> ring

/-- `Forward_cpu` equals the slice-indexed scatter: the nested batch and
channel loops process the `num * channels` contiguous slices in order,
each at its own offsets. -/
theorem Forward_cpu_eq_slices (num channels height width uh uw : Nat)
    (b : List Dtype) (mk : List Nat) :
    Forward_cpu num channels height width uh uw b mk
      = forwardSlices b mk height width uh uw (num * channels)
          (caffe_set (num * channels * (uh * uw)) 0) := by
  have h1 : (List.range num).foldl (fun st _n =>
        (List.range channels).foldl (fun st _c =>
          (⟨st.botOff + height * width, st.maskOff + height * width,
            st.topOff + uh * uw,
            forwardSliceLoop b mk st.botOff st.maskOff st.topOff height width
              st.buf⟩ : PtrState)) st)
        ⟨0, 0, 0, caffe_set (num * channels * (uh * uw)) 0⟩
      = (List.range (num * channels)).foldl (fun st _s =>
          (⟨st.botOff + height * width, st.maskOff + height * width,
            st.topOff + uh * uw,
            forwardSliceLoop b mk st.botOff st.maskOff st.topOff height width
              st.buf⟩ : PtrState))
        ⟨0, 0, 0, caffe_set (num * channels * (uh * uw)) 0⟩ :=
    foldl_range_nest (fun st _s =>
        (⟨st.botOff + height * width, st.maskOff + height * width,
          st.topOff + uh * uw,
          forwardSliceLoop b mk st.botOff st.maskOff st.topOff height width
            st.buf⟩ : PtrState))
      num channels ⟨0, 0, 0, caffe_set (num * channels * (uh * uw)) 0⟩
  have h2 := forward_state_fold b mk height width uh uw (num * channels) 0
    (caffe_set (num * channels * (uh * uw)) 0)
  simp only [Nat.zero_mul, Nat.zero_add] at h2
  unfold Forward_cpu forwardSlices
  rw [h1, h2]

theorem forwardSlices_succ (b : List Dtype) (mk : List Nat)
    (height width uh uw S : Nat) (td : List Dtype) :
    forwardSlices b mk height width uh uw (S + 1) td
      = forwardSliceLoop b mk (S * (height * width)) (S * (height * width))
          (S * (uh * uw)) height width
          (forwardSlices b mk height width uh uw S td) := by
  unfold forwardSlices
  rw [List.range_succ, List.foldl_append]
  simp only [List.foldl_cons, List.foldl_nil]

theorem forwardSlices_length (b : List Dtype) (mk : List Nat)
    (height width uh uw S : Nat) (td : List Dtype) :
    (forwardSlices b mk height width uh uw S td).length = td.length := by
  induction S with
  | zero => rfl
  | succ n ih =>
    rw [forwardSlices_succ, forwardSliceLoop_eq_scatterFlat, scatterFlat_length, ih]

/-- Positions at flat index `S * (uh * uw)` or beyond are untouched by the
first `S` slices (all mask entries in range). -/
theorem forwardSlices_frame (b : List Dtype) (mk : List Nat)
    (height width uh uw S : Nat) (td : List Dtype)
    (hmask : ∀ j, j < S * (height * width) → mk.getD j 0 < uh * uw)
    (p : Nat) (hp : S * (uh * uw) ≤ p) :
    (forwardSlices b mk height width uh uw S td).getD p 0 = td.getD p 0 := by
  induction S with
  | zero => rfl
  | succ n ih =>
    rw [forwardSlices_succ, forwardSliceLoop_eq_scatterFlat]
    rw [scatterFlat_frame _ _ _ _ _ _ (uh * uw) _ ?hm _ (Or.inr ?hp)]
    case hm =>
      intro i hi
      exact hmask (n * (height * width) + i)
        (by rw [Nat.succ_mul]; exact Nat.add_lt_add_left hi _)
    case hp => rw [← Nat.succ_mul]; exact hp
    exact ih (fun j hj => hmask j (Nat.lt_of_lt_of_le hj
        (Nat.mul_le_mul_right _ (Nat.le_succ n))))
      (Nat.le_trans (Nat.mul_le_mul_right _ (Nat.le_succ n)) hp)

/-- The value the first `S` slices leave at position `t` of slice `s`'s
output region: the input at the last flat position of slice `s` whose mask
entry is `t`, else the pre-existing buffer value. -/
theorem forwardSlices_getD (b : List Dtype) (mk : List Nat)
    (height width uh uw s t : Nat) (ht : t < uh * uw) :
    ∀ (S : Nat) (td : List Dtype), s < S →
      (∀ j, j < S * (height * width) → mk.getD j 0 < uh * uw) →
      (s + 1) * (uh * uw) ≤ td.length →
      (forwardSlices b mk height width uh uw S td).getD (s * (uh * uw) + t) 0 =
        match lastWriter mk (s * (height * width)) (height * width) t with
        | some i => b.getD (s * (height * width) + i) 0
        | none => td.getD (s * (uh * uw) + t) 0 := by
  intro S
  induction S with
  | zero => intro td hs; exact absurd hs (Nat.not_lt_zero s)
  | succ n ih =>
    intro td hs hmask hlen
    have hmask' : ∀ j, j < n * (height * width) → mk.getD j 0 < uh * uw :=
      fun j hj => hmask j (Nat.lt_of_lt_of_le hj
        (Nat.mul_le_mul_right _ (Nat.le_succ n)))
    rw [forwardSlices_succ, forwardSliceLoop_eq_scatterFlat]
    rcases Nat.lt_succ_iff_lt_or_eq.mp hs with hlt | rfl
    · have hplt : s * (uh * uw) + t < n * (uh * uw) := by
        have h1 : s * (uh * uw) + t < (s + 1) * (uh * uw) := by
          rw [Nat.succ_mul]; exact Nat.add_lt_add_left ht _
        exact Nat.lt_of_lt_of_le h1 (Nat.mul_le_mul_right _ hlt)
      rw [scatterFlat_frame _ _ _ _ _ _ (uh * uw) _ ?hm _ (Or.inl hplt)]
      case hm =>
        intro i hi
        exact hmask (n * (height * width) + i)
          (by rw [Nat.succ_mul]; exact Nat.add_lt_add_left hi _)
      exact ih td hlt hmask' hlen
    · have hlen' : s * (uh * uw) + t
          < (forwardSlices b mk height width uh uw s td).length := by
        rw [forwardSlices_length]
        have h1 : s * (uh * uw) + t < (s + 1) * (uh * uw) := by
          rw [Nat.succ_mul]; exact Nat.add_lt_add_left ht _
        exact Nat.lt_of_lt_of_le h1 hlen
      rw [scatterFlat_getD_last _ _ _ _ _ _ _ _ hlen']
      cases hlw : lastWriter mk (s * (height * width)) (height * width) t with
      | some i => rfl
      | none =>
        exact forwardSlices_frame b mk height width uh uw s td hmask'
          _ (Nat.le_add_right _ _)

/-! ### Claim theorem: forward kernel -/

/-- Claim C3: for every input and every in-range mask, after the forward
pass every output position `t` of slice `(n, c)` holds the input value at
the row-major-last flat input position `i` of that slice with
`mask[i] = t` (last write wins on collisions), and holds zero when no mask
entry of that slice references `t`. -/
theorem forward_scatter_characterization
    (num channels height width unpooled_height unpooled_width : Nat)
    (bottom_data : List Dtype) (bottom_mask : List Nat)
    (hmask : ∀ j, j < num * channels * (height * width) →
      bottom_mask.getD j 0 < unpooled_height * unpooled_width)
    (n c t : Nat) (hn : n < num) (hc : c < channels)
    (ht : t < unpooled_height * unpooled_width) :
    (Forward_cpu num channels height width unpooled_height unpooled_width
        bottom_data bottom_mask).getD
        ((n * channels + c) * (unpooled_height * unpooled_width) + t) 0 =
      match lastWriter bottom_mask ((n * channels + c) * (height * width))
          (height * width) t with
      | some i => bottom_data.getD ((n * channels + c) * (height * width) + i) 0
      | none => 0 := by
  have hs : n * channels + c < num * channels := by
    have h1 : n * channels + c < (n + 1) * channels := by
      rw [Nat.succ_mul]; exact Nat.add_lt_add_left hc _
    exact Nat.lt_of_lt_of_le h1 (Nat.mul_le_mul_right _ hn)
  have hlen : (n * channels + c + 1) * (unpooled_height * unpooled_width)
      ≤ (caffe_set (num * channels * (unpooled_height * unpooled_width)) 0).length := by
    rw [caffe_set, List.length_replicate]
    exact Nat.mul_le_mul_right _ hs
  rw [Forward_cpu_eq_slices,
    forwardSlices_getD bottom_data bottom_mask height width unpooled_height
      unpooled_width (n * channels + c) t ht (num * channels) _ hs hmask hlen]
  cases lastWriter bottom_mask ((n * channels + c) * (height * width))
      (height * width) t with
  | some i => rfl
  | none => exact getD_replicate_zero _ _

theorem forward_scatter_characterization_witness :
    (0 : Nat) < 1 ∧ (0 : Nat) < 1 ∧ (1 : Nat) < 1 * 2 ∧
      (Forward_cpu 1 1 1 2 1 2 [10, 20] [1, 1]).getD 1 0 = 20 :=
  ⟨by decide, by decide, by decide,
    forward_scatter_characterization 1 1 1 2 1 2 [10, 20] [1, 1]
      (by decide) 0 0 1 (by decide) (by decide) (by decide)⟩

end Caffe
